import Mathlib

/-!
Verification development for the genro-proxy repository.

This file shallowly embeds the parts of the code base that the checked
properties speak about:

* the association-list / Python-dict model used for rows and parameter maps,
* the SQL adapter surface (`placeholder`, `_sql_name`, `for_update_clause`)
  from `genro_proxy/sql/adapters/base.py` with the two concrete adapters,
* the CRUD SQL builders of `SqlDb` (`genro_proxy/sql/sqldb.py`),
* the `connection()` transactional context of `SqlDb` as a trace semantics,
* `Table.record` / `select_for_update` and the `RecordUpdater` scoped editor
  (`proxy/sql/table.py`),
* the `WhereBuilder` and `Query` SQL construction (`proxy/sql/query.py`),
* `TenantsTable.get_tenant_by_token` (`genro_proxy/entities/tenant/table.py`),
* the tenant-resolution step of `BaseEndpoint.invoke`
  (`genro_proxy/interface/endpoint_base.py`),
* `require_admin_token` (`genro_proxy/interface/api_base.py`),
* the most-derived-class discovery of `SqlDb.discover` and
  `EndpointManager.discover`.

Python `dict`s are modelled as insertion-ordered association lists; Python
truthiness (`if value:`) is modelled explicitly where the code relies on it.
The SHA-256 digest used for API keys is an external primitive and is
abstracted as a function parameter named `sha256`.
-/

namespace GenroProxy

/-- Scalar Python values as they appear in database rows and parameter maps.
`null` is Python `None`. -/
inductive Scalar where
  | null
  | s (v : String)
  | i (n : Int)
  | b (v : Bool)
  deriving DecidableEq, Repr

/-- Values accepted by the query-builder's named predicates: scalars or lists
of scalars (Python lists/tuples whose elements are bound individually). -/
inductive PyVal where
  | scalar (v : Scalar)
  | list (l : List Scalar)
  deriving DecidableEq, Repr

/-- Python truthiness of a scalar (`if value:`). -/
def truthyScalar : Scalar → Bool
  | .null => false
  | .s v => v ≠ ""
  | .i n => n ≠ 0
  | .b v => v

/-- Python truthiness of an optional string (`if api_token:`): `None` and the
empty string are both falsy. -/
def truthyOptStr : Option String → Bool
  | none => false
  | some s => s ≠ ""

/-- Python `type(value)` as rendered in query-builder error messages. -/
def pyTypeName : PyVal → String
  | .scalar .null => "NoneType"
  | .scalar (.s _) => "str"
  | .scalar (.i _) => "int"
  | .scalar (.b _) => "bool"
  | .list _ => "list"

namespace AList

/-- Lookup in an insertion-ordered association list (Python `d.get(k)` /
`d[k]`). -/
def get? (m : List (String × α)) (k : String) : Option α :=
  match m with
  | [] => none
  | (k', v) :: t => if k' = k then some v else get? t k

/-- Python `d[k] = v`: replace in place if the key exists, else append. -/
def set (m : List (String × α)) (k : String) (v : α) : List (String × α) :=
  match m with
  | [] => [(k, v)]
  | (k', v') :: t => if k' = k then (k', v) :: t else (k', v') :: set t k v

/-- Python `k in d`. -/
def hasKey (m : List (String × α)) (k : String) : Bool :=
  (get? m k).isSome

end AList

/-- A database row, a Python dict of column name to scalar value. -/
abbrev Row := List (String × Scalar)

/-- SQL three-valued equality as used by `col = :value` predicates: a `NULL`
on either side never matches. -/
def sqlEq : Scalar → Scalar → Bool
  | .null, _ => false
  | _, .null => false
  | a, b => a = b

/-- Whether a row satisfies a simple equality where-map. A column absent from
the row behaves like `NULL` (never matches). -/
def matchesWhere (row : Row) (w : Row) : Bool :=
  w.all fun kv =>
    match AList.get? row kv.1 with
    | some v => sqlEq v kv.2
    | none => false

/-! ## Adapter (`genro_proxy/sql/adapters/base.py`, `sqlite.py`,
`proxy/sql/adapters/postgresql.py`) -/

/-- The adapter data the SQL builders depend on: the bind-parameter template
and the row-locking clause. -/
structure Adapter where
  placeholderTemplate : String
  forUpdateClause : String
  deriving DecidableEq, Repr

/-- Source `DbAdapter._placeholder`: `self.placeholder.replace("name", name)`. -/
def Adapter.placeholder (a : Adapter) (name : String) : String :=
  a.placeholderTemplate.replace "name" name

/-- Source `DbAdapter._sql_name`: `f'"{name}"'`. -/
def Adapter.sqlName (_a : Adapter) (name : String) : String :=
  "\"" ++ name ++ "\""

/-- The SQLite adapter: `placeholder = ":name"`, no row locking. -/
def sqliteAdapter : Adapter := ⟨":name", ""⟩

/-- The PostgreSQL adapter: `placeholder = "%(name)s"`, `" FOR UPDATE"`. -/
def postgresAdapter : Adapter := ⟨"%(name)s", " FOR UPDATE"⟩

/-! ## `SqlDb` CRUD helper SQL (`genro_proxy/sql/sqldb.py`, lines 276-362)

Each builder returns the SQL text exactly as the Python code assembles it;
the bound parameters travel separately, as in the source.  Following Python
truthiness in the source (`if where:`, `if columns:`, `if order_by:`,
`if limit:`), an empty where-map / column list / order-by string and a zero
limit behave like the absent value. -/

/-- Source `SqlDb.insert` query text. -/
def insertSql (a : Adapter) (table : String) (values : List (String × Scalar)) : String :=
  let cols := values.map Prod.fst
  let placeholders := String.intercalate ", " (cols.map a.placeholder)
  let colList := String.intercalate ", " (cols.map (a.sqlName ·))
  "INSERT INTO " ++ table ++ " (" ++ colList ++ ") VALUES (" ++ placeholders ++ ")"

/-- Source `SqlDb.select` query text. `columns = []` renders `*`; `orderBy = ""` and
`limit = 0` are the falsy/absent cases. -/
def selectSql (a : Adapter) (table : String) (columns : List String)
    (whereMap : List (String × Scalar)) (orderBy : String) (limit : Nat) : String :=
  let colsSql := if columns.isEmpty then "*"
    else String.intercalate ", " (columns.map (a.sqlName ·))
  let base := "SELECT " ++ colsSql ++ " FROM " ++ table
  let withWhere := if whereMap.isEmpty then base
    else base ++ " WHERE " ++ String.intercalate " AND "
      (whereMap.map fun kv => a.sqlName kv.1 ++ " = " ++ a.placeholder kv.1)
  let withOrder := if orderBy = "" then withWhere
    else withWhere ++ " ORDER BY " ++ orderBy
  if limit = 0 then withOrder else withOrder ++ " LIMIT " ++ toString limit

/-- Source `SqlDb.update` query text (`val_` / `whr_` parameter prefixes). -/
def updateSql (a : Adapter) (table : String) (values : List (String × Scalar))
    (whereMap : List (String × Scalar)) : String :=
  let setParts := values.map fun kv =>
    a.sqlName kv.1 ++ " = " ++ a.placeholder ("val_" ++ kv.1)
  let whereParts := whereMap.map fun kv =>
    a.sqlName kv.1 ++ " = " ++ a.placeholder ("whr_" ++ kv.1)
  "UPDATE " ++ table ++ " SET " ++ String.intercalate ", " setParts ++
    " WHERE " ++ String.intercalate " AND " whereParts

/-- Source `SqlDb.delete` query text. -/
def deleteSql (a : Adapter) (table : String) (whereMap : List (String × Scalar)) : String :=
  let whereParts := whereMap.map fun kv =>
    a.sqlName kv.1 ++ " = " ++ a.placeholder kv.1
  "DELETE FROM " ++ table ++ " WHERE " ++ String.intercalate " AND " whereParts

/-- Source `SqlDb.exists` query text. -/
def existsSql (a : Adapter) (table : String) (whereMap : List (String × Scalar)) : String :=
  let conditions := whereMap.map fun kv =>
    a.sqlName kv.1 ++ " = " ++ a.placeholder kv.1
  "SELECT 1 FROM " ++ table ++ " WHERE " ++ String.intercalate " AND " conditions ++ " LIMIT 1"

/-- Source `SqlDb.count` query text. -/
def countSql (a : Adapter) (table : String) (whereMap : List (String × Scalar)) : String :=
  let base := "SELECT COUNT(*) as cnt FROM " ++ table
  if whereMap.isEmpty then base
  else base ++ " WHERE " ++ String.intercalate " AND "
    (whereMap.map fun kv => a.sqlName kv.1 ++ " = " ++ a.placeholder kv.1)

/-! ## `SqlDb.connection` (`genro_proxy/sql/sqldb.py`, lines 101-128)

The context manager is modelled as a trace of the effectful calls it makes,
driven by three booleans saying whether the body, `adapter.commit` and
`adapter.rollback` raise.  The Python source is

    conn = await self.adapter.acquire()
    token = _current_conn.set(conn)
    try:
        yield self
        await self.adapter.commit(conn)
    except Exception:
        await self.adapter.rollback(conn)
        raise
    finally:
        _current_conn.reset(token)
        await self.adapter.release(conn)
-/

/-- Observable steps of `SqlDb.connection`. -/
inductive Ev where
  | acquire
  | setSlot
  | body
  | commit
  | rollback
  | resetSlot
  | release
  deriving DecidableEq, Repr

/-- Which exception escapes the context, if any. -/
inductive ExcKind where
  | bodyExc
  | commitExc
  | rollbackExc
  deriving DecidableEq, Repr

/-- Trace semantics of `SqlDb.connection`: the events in order and the
exception that propagates out. The `try` block runs the body then `commit`;
the `except Exception` clause runs `rollback` and re-raises (a failure of
`rollback` itself replaces the propagated exception); the `finally` clause
always resets the contextvar slot and releases the connection. -/
def connectionTrace (bodyFails commitFails rollbackFails : Bool) :
    List Ev × Option ExcKind :=
  let tryPart : List Ev × Option ExcKind :=
    if bodyFails then ([Ev.body], some .bodyExc)
    else if commitFails then ([Ev.body, Ev.commit], some .commitExc)
    else ([Ev.body, Ev.commit], none)
  let afterExcept : List Ev × Option ExcKind :=
    match tryPart with
    | (evs, none) => (evs, none)
    | (evs, some e) =>
      if rollbackFails then (evs ++ [Ev.rollback], some .rollbackExc)
      else (evs ++ [Ev.rollback], some e)
  ([Ev.acquire, Ev.setSlot] ++ afterExcept.1 ++ [Ev.resetSlot, Ev.release],
    afterExcept.2)

/-! ## `Table.record` and `Table.select_for_update`
(`proxy/sql/table.py`, lines 439-548)

The database is modelled as a list of rows in storage order; `db.select`
with a where-map and limit is a filter followed by `take`, and
`select_for_update`'s `fetch_one` is the head of the filtered rows.  JSON
decode / decryption are the identity for the tables involved here and are
omitted. -/

/-- Outcome of `Table.record`. `found []` is the empty dict returned under
`ignore_missing`. -/
inductive RecordResult where
  | found (r : Row)
  | notFound
  | duplicate (count : Nat)
  | argError
  deriving DecidableEq, Repr

/-- Core of `Table.record` once the effective where-map is built:
`for_update` goes through `select_for_update` (a `fetch_one`, so at most one
row), otherwise the rows are fetched with `limit=2` to detect duplicates;
then the result cases of lines 511-524. -/
def tableRecord (rows : List Row) (effWhere : Row)
    (ignoreMissing ignoreDuplicate forUpdate : Bool) : RecordResult :=
  let matched := rows.filter (fun r => matchesWhere r effWhere)
  let fetched := if forUpdate then matched.take 1 else matched.take 2
  match fetched with
  | [] => if ignoreMissing then .found [] else .notFound
  | [r] => .found r
  | r :: _ :: _ => if ignoreDuplicate then .found r else .duplicate matched.length

/-- Entry logic of `Table.record`: dispatch on the `pkey` argument versus the
`where` argument (lines 487-495). `tablePkey` is the table's `pkey`
attribute. -/
def tableRecordEntry (rows : List Row) (tablePkey : Option String)
    (pkeyArg : Option Scalar) (whereArg : Option Row)
    (ignoreMissing ignoreDuplicate forUpdate : Bool) : RecordResult :=
  match pkeyArg with
  | some pv =>
    match tablePkey with
    | none => .argError
    | some pc => tableRecord rows [(pc, pv)] ignoreMissing ignoreDuplicate forUpdate
  | none =>
    match whereArg with
    | some w => tableRecord rows w ignoreMissing ignoreDuplicate forUpdate
    | none => .argError

/-! ## `RecordUpdater` (`proxy/sql/table.py`, lines 51-150) -/

/-- The kwargs loop at the end of `RecordUpdater.__aenter__`:
`for k, v in kwargs.items(): if v is not None: record[k] = v`. -/
def applyKwargs (r : Row) (kwargs : List (String × Scalar)) : Row :=
  kwargs.foldl (fun acc kv => if kv.2 ≠ Scalar.null then AList.set acc kv.1 kv.2 else acc) r

/-- State held by the updater after `__aenter__`: the yielded record, the
saved `old_record` (None when the row was absent) and the `is_insert`
flag. -/
structure UpdaterState where
  record : Row
  old_record : Option Row
  is_insert : Bool
  deriving DecidableEq, Repr

/-- Source `RecordUpdater.__aenter__` before the kwargs loop: the base record, the
`old_record` slot and `is_insert` (lines 112-131).  The underlying
`Table.record` call uses `ignore_missing=True`, so the only escaping failure
is `RecordDuplicateError` (possible when `for_update` is false). -/
def aenterCore (rows : List Row) (w : Row) (insertMissing ignoreMissing forUpdate : Bool) :
    Except String (Row × Option Row × Bool) :=
  match tableRecord rows w true false forUpdate with
  | .found old =>
    if old.isEmpty then
      if insertMissing then .ok (w, none, true)
      else if ignoreMissing then .ok ([], none, false)
      else .ok ([], none, false)
    else .ok (old, some old, false)
  | .duplicate n => .error ("RecordDuplicateError " ++ toString n)
  | _ => .error "unreachable"

/-- Source `RecordUpdater.__aenter__`: base record selection followed by the kwargs
loop (lines 132-136). -/
def aenter (rows : List Row) (w : Row) (insertMissing ignoreMissing forUpdate : Bool)
    (kwargs : List (String × Scalar)) : Except String UpdaterState :=
  (aenterCore rows w insertMissing ignoreMissing forUpdate).map
    fun x => ⟨applyKwargs x.1 kwargs, x.2.1, x.2.2⟩

/-- The write performed by `RecordUpdater.__aexit__`. -/
inductive WriteAction where
  | none
  | insert (r : Row)
  | update (r : Row) (w : Row)
  deriving DecidableEq, Repr

/-- Source `RecordUpdater.__aexit__` (lines 140-150): nothing on exception, nothing
when the (possibly body-mutated) record is empty, insert when seeded, update
when an old record existed; otherwise nothing.  The method never raises. -/
def aexit (st : UpdaterState) (w : Row) (excRaised : Bool) : WriteAction :=
  if excRaised then .none
  else if st.record.isEmpty then .none
  else if st.is_insert then .insert st.record
  else if st.old_record.isSome then .update st.record w
  else .none

/-! ## `TenantsTable.get_tenant_by_token`
(`genro_proxy/entities/tenant/table.py`, lines 80-101) -/

/-- Source `TenantsTable._decode_active`:
`tenant["active"] = bool(tenant.get("active", 1))`. -/
def decodeActive (t : Row) : Row :=
  AList.set t "active" (.b (truthyScalar ((AList.get? t "active").getD (.i 1))))

/-- Source `expires_at < int(time.time())` — defined for integer timestamps, the
only values the schema stores there (a non-integer would be a `TypeError` in
the source; theorems restrict to the typed cases). -/
def scalarLtInt : Scalar → Int → Bool
  | .i m, n => m < n
  | _, _ => false

/-- Source `TenantsTable.get_tenant_by_token`: hash the key, fetch the row whose
`api_key_hash` equals the digest via `Table.record` (`ignore_missing=True`,
no `for_update`, so a duplicate hash raises `RecordDuplicateError`), then
the truthiness-guarded expiry check
`if expires_at and expires_at < int(time.time()): return None`. -/
def get_tenant_by_token (sha256 : String → String) (rows : List Row) (now : Int)
    (apiKey : String) : Except String (Option Row) :=
  let keyHash := sha256 apiKey
  match tableRecord rows [("api_key_hash", Scalar.s keyHash)] true false false with
  | .found tenant =>
    if tenant.isEmpty then .ok none
    else
      let expiresAt := (AList.get? tenant "api_key_expires_at").getD Scalar.null
      if truthyScalar expiresAt && scalarLtInt expiresAt now then .ok none
      else .ok (some (decodeActive tenant))
  | .duplicate n => .error ("RecordDuplicateError " ++ toString n)
  | _ => .error "unreachable"

/-! ## Tenant resolution in `BaseEndpoint.invoke`
(`genro_proxy/interface/endpoint_base.py`, lines 462-497)

The modelled slice is the parameter map as it leaves the tenant-resolution
step, i.e. the map that then flows into `_coerce_json_params`, the Pydantic
validation and the method call:

    if api_token and not is_admin and "tenant_id" not in params:
        tenant_id = await self._resolve_tenant_from_token(api_token)
        if tenant_id:
            params["tenant_id"] = tenant_id

with `_resolve_tenant_from_token` returning `tenant["id"]` for a found
tenant and raising `InvalidTokenError` otherwise (a `KeyError` on the `id`
column is caught and also ends in `InvalidTokenError`; the uncaught
`RecordDuplicateError` from the lookup propagates as a DB error). -/

/-- Failures escaping the tenant-resolution step of `invoke`. -/
inductive InvokeErr where
  | invalidToken
  | dbError (msg : String)
  deriving DecidableEq, Repr

/-- The tenant-resolution step of `BaseEndpoint.invoke`, returning the
parameter map handed to coercion/validation/method call. -/
def invokeResolveStep (sha256 : String → String) (tenantRows : List Row) (now : Int)
    (params : List (String × Scalar)) (apiToken : Option String) (isAdmin : Bool) :
    Except InvokeErr (List (String × Scalar)) :=
  if truthyOptStr apiToken && !isAdmin && !AList.hasKey params "tenant_id" then
    match get_tenant_by_token sha256 tenantRows now (apiToken.getD "") with
    | .error m => .error (.dbError m)
    | .ok none => .error .invalidToken
    | .ok (some tenant) =>
      match AList.get? tenant "id" with
      | none => .error .invalidToken
      | some tid =>
        if truthyScalar tid then .ok (AList.set params "tenant_id" tid)
        else .ok params
  else .ok params

/-! ## `require_admin_token` (`genro_proxy/interface/api_base.py`,
lines 81-117)

`expected` is `app.state.api_token` (the configured admin token or `None`);
the presented token comes from the `X-API-Token` header.  The module-level
`_proxy` is set during app creation, so the tenant check is modelled as
always reachable.  `secrets.compare_digest` agrees with string equality. -/

/-- Outcome of the admin-only authentication dependency. -/
inductive GateResult where
  | allow
  | http401
  | http403
  | http500 (msg : String)
  deriving DecidableEq, Repr

/-- Source `secrets.compare_digest` on strings: constant-time, functionally
equality. -/
def secretsCompareDigest (a b : String) : Bool := a = b

/-- Source `require_admin_token`.  An exception escaping the dependency (the
duplicate-hash `RecordDuplicateError`) surfaces as HTTP 500. -/
def require_admin_token (sha256 : String → String) (tenantRows : List Row) (now : Int)
    (expected : Option String) (apiToken : Option String) : GateResult :=
  if !truthyOptStr apiToken then
    if expected.isSome then .http401 else .allow
  else
    let tok := apiToken.getD ""
    if (match expected with
        | some e => secretsCompareDigest tok e
        | none => false) then .allow
    else
      match get_tenant_by_token sha256 tenantRows now tok with
      | .error m => .http500 m
      | .ok (some _) => .http403
      | .ok none => .http401

/-! ## Most-derived discovery (`genro_proxy/sql/sqldb.py`, lines 154-205;
`genro_proxy/interface/endpoint_base.py`, lines 520-578)

Classes are abstracted by a type `C` with `issub` playing `issubclass` and
`name` the entity-name attribute.  Phase 1 collects candidates into a
name-keyed dict, replacing an entry only when the newcomer is a subclass of
it; phase 2 registers the winners into a registry, replacing only a strictly
less derived existing registration. -/

section Discover

variable {C : Type} [DecidableEq C]

/-- One step of phase 1 (both `SqlDb.discover` and
`EndpointManager.discover`): keep the most derived class per name, ties keep
the earlier one. -/
def addCandidate (issub : C → C → Bool) (name : C → String)
    (m : List (String × C)) (cls : C) : List (String × C) :=
  match AList.get? m (name cls) with
  | none => AList.set m (name cls) cls
  | some existing => if issub cls existing then AList.set m (name cls) cls else m

/-- Phase 1 over the concatenated per-package class lists, in scan order. -/
def collectMostDerived (issub : C → C → Bool) (name : C → String)
    (classes : List C) : List (String × C) :=
  classes.foldl (addCandidate issub name) []

/-- Phase 2: register the winners, replacing an existing registration only
when the newcomer is a different, strictly more derived class
(`table_class is not type(existing) and issubclass(table_class, type(existing))`). -/
def registerPhase (issub : C → C → Bool) (name : C → String)
    (registry : List (String × C)) (winners : List C) : List (String × C) :=
  winners.foldl
    (fun reg cls =>
      match AList.get? reg (name cls) with
      | none => AList.set reg (name cls) cls
      | some existing =>
        if cls ≠ existing ∧ issub cls existing = true then AList.set reg (name cls) cls
        else reg)
    registry

/-- Source `discover`: phase 1 then phase 2 against the current registry. -/
def discover (issub : C → C → Bool) (name : C → String)
    (registry : List (String × C)) (classes : List C) : List (String × C) :=
  registerPhase issub name registry ((collectMostDerived issub name classes).map Prod.snd)

end Discover

/-! ## `WhereBuilder` and `Query` (`proxy/sql/query.py`) -/

/-- Source `WhereBuilder.OPERATORS`. -/
def OPERATORS : List String :=
  ["=", "!=", "<>", "<", ">", "<=", ">=",
   "LIKE", "ILIKE", "NOT LIKE", "NOT ILIKE",
   "IN", "NOT IN",
   "IS NULL", "IS NOT NULL",
   "BETWEEN"]

/-- Python `str.upper()` for the (ASCII) operator strings: uppercase each
character. -/
def strUpper (s : String) : String := String.mk (s.data.map Char.toUpper)

/-- A named predicate `{column, op, value}`; `op` is `cond.get('op', '=')`
and a missing `value` is Python `None` (`PyVal.scalar .null`). -/
structure Cond where
  column : String
  op : Option String
  value : PyVal
  deriving DecidableEq, Repr

/-- The named-parameter map accumulated while rendering predicates. -/
abbrev Params := List (String × PyVal)

/-- Source `WhereBuilder._condition_to_sql` (lines 135-189): renders one named
predicate, threading the parameter map it mutates. -/
def condToSql (a : Adapter) (cond : Cond) (name : String) (params : Params) :
    Except String (String × Params) :=
  let column := cond.column
  let op := strUpper (cond.op.getD "=")
  let value := cond.value
  if !OPERATORS.contains op then
    .error ("Operatore '" ++ op ++ "' non supportato")
  else if op = "IS NULL" || op = "IS NOT NULL" then
    .ok (column ++ " " ++ op, params)
  else if op = "IN" || op = "NOT IN" then
    match value with
    | .list l =>
      if l.isEmpty then .ok (if op = "IN" then "1=0" else "1=1", params)
      else
        let placeholders := (List.range l.length).map
          (fun i => a.placeholder ("c_" ++ name ++ "_" ++ toString i))
        let params' := l.enum.foldl
          (fun p iv => AList.set p ("c_" ++ name ++ "_" ++ toString iv.1) (PyVal.scalar iv.2))
          params
        .ok (column ++ " " ++ op ++ " (" ++ String.intercalate ", " placeholders ++ ")",
          params')
    | _ => .error ("IN/NOT IN richiede lista, ricevuto " ++ pyTypeName value)
  else if op = "BETWEEN" then
    match value with
    | .list [lo, hi] =>
      let lowParam := "c_" ++ name ++ "_low"
      let highParam := "c_" ++ name ++ "_high"
      .ok (column ++ " BETWEEN " ++ a.placeholder lowParam ++ " AND " ++
            a.placeholder highParam,
        AList.set (AList.set params lowParam (PyVal.scalar lo)) highParam (PyVal.scalar hi))
    | _ => .error "BETWEEN richiede lista di 2 elementi [low, high]"
  else
    match value with
    | .scalar (.s sv) =>
      if sv.startsWith ":" then
        .ok (column ++ " " ++ op ++ " " ++ a.placeholder (sv.drop 1), params)
      else
        .ok (column ++ " " ++ op ++ " " ++ a.placeholder ("c_" ++ name),
          AList.set params ("c_" ++ name) value)
    | _ =>
      .ok (column ++ " " ++ op ++ " " ++ a.placeholder ("c_" ++ name),
        AList.set params ("c_" ++ name) value)

/-- Source `WhereBuilder._build_simple` (lines 101-113): equality per key joined by
`AND`, parameters prefixed `w_`. -/
def buildSimple (a : Adapter) (w : List (String × PyVal)) : String × Params :=
  if w.isEmpty then ("", [])
  else
    (String.intercalate " AND "
        (w.map fun kv => kv.1 ++ " = " ++ a.placeholder ("w_" ++ kv.1)),
      w.foldl (fun p kv => AList.set p ("w_" ++ kv.1) kv.2) [])

/-- Word characters as matched by the regex `\$(\w+)`. -/
def isWordChar (c : Char) : Bool := c.isAlphanum || c = '_'

/-- The `re.sub(r'\$(\w+)', replace_cond, expr)` of
`WhereBuilder._build_expression` (lines 115-133) as a character scanner:
each `$name` (with at least one word character) is replaced by the
parenthesised rendering of the named condition; an unknown name raises; a
lone `$` is left in place. -/
def substChars (a : Adapter) (conds : List (String × Cond)) :
    List Char → Params → Except String (List Char × Params)
  | [], p => .ok ([], p)
  | c :: rest, p =>
    if c = '$' then
      let nameChars := rest.takeWhile isWordChar
      if nameChars.isEmpty then
        match substChars a conds rest p with
        | .error e => .error e
        | .ok (t, q) => .ok ('$' :: t, q)
      else
        let nm := String.mk nameChars
        match AList.get? conds nm with
        | none => .error ("Condizione '" ++ nm ++ "' non trovata")
        | some cond =>
          match condToSql a cond nm p with
          | .error e => .error e
          | .ok (sql, p') =>
            match substChars a conds (rest.dropWhile isWordChar) p' with
            | .error e => .error e
            | .ok (t, p'') => .ok (("(" ++ sql ++ ")").toList ++ t, p'')
    else
      match substChars a conds rest p with
      | .error e => .error e
      | .ok (t, q) => .ok (c :: t, q)
termination_by cs _ => cs.length
decreasing_by
  · simp
  · simp only [List.length_cons]
    exact Nat.lt_succ_of_le (List.dropWhile_suffix _).length_le
  · simp

/-- Source `WhereBuilder._build_expression`: run the substitution over the
expression string, starting from a copy of the external parameters. -/
def buildExpression (a : Adapter) (expr : String) (conds : List (String × Cond))
    (params : Params) : Except String (String × Params) :=
  match substChars a conds expr.toList params with
  | .error e => .error e
  | .ok (cs, p) => .ok (String.mk cs, p)

/-- The `where` argument of `WhereBuilder.build`: `None`, a simple dict, or
an expression string. -/
inductive WhereArg where
  | null
  | dict (w : List (String × PyVal))
  | expr (e : String)
  deriving Repr

/-- Source `WhereBuilder.build` (lines 75-99). -/
def whereBuild (a : Adapter) (w : WhereArg) (conds : List (String × Cond))
    (params : Params) : Except String (String × Params) :=
  match w with
  | .null => .ok ("", [])
  | .dict d => .ok (buildSimple a d)
  | .expr e => buildExpression a e conds params

/-- Source `Query._execute_select` SQL assembly (lines 283-305). `orderBy = ""` and
zero `limit` / `offset` are the falsy/absent cases; `limit or self.limit`
picks the call-site limit when truthy, else the query's own. -/
def querySelectSql (a : Adapter) (tableName : String) (columns : List String)
    (whereSql : String) (orderBy : String) (limitArg selfLimit offset : Nat)
    (forUpdate : Bool) : String :=
  let cols := if columns.isEmpty then "*" else String.intercalate ", " columns
  let s1 := "SELECT " ++ cols ++ " FROM " ++ tableName
  let s2 := if whereSql = "" then s1 else s1 ++ " WHERE " ++ whereSql
  let s3 := if orderBy = "" then s2 else s2 ++ " ORDER BY " ++ orderBy
  let effectiveLimit := if limitArg ≠ 0 then limitArg else selfLimit
  let s4 := if effectiveLimit = 0 then s3 else s3 ++ " LIMIT " ++ toString effectiveLimit
  let s5 := if offset = 0 then s4 else s4 ++ " OFFSET " ++ toString offset
  if forUpdate then s5 ++ a.forUpdateClause else s5

/-- Source `Query._execute_count` SQL assembly (lines 312-316). -/
def queryCountSql (tableName whereSql : String) : String :=
  let base := "SELECT COUNT(*) as cnt FROM " ++ tableName
  if whereSql = "" then base else base ++ " WHERE " ++ whereSql

/-- Source `Query._execute_update_raw` SQL assembly (lines 426-444), parameters
prefixed `upd_`. -/
def queryUpdateRawSql (a : Adapter) (tableName : String)
    (values : List (String × PyVal)) (whereSql : String) : String :=
  let setParts := values.map fun kv => kv.1 ++ " = " ++ a.placeholder ("upd_" ++ kv.1)
  let s := "UPDATE " ++ tableName ++ " SET " ++ String.intercalate ", " setParts
  if whereSql = "" then s else s ++ " WHERE " ++ whereSql

/-- Source `Query._execute_delete_raw` SQL assembly (lines 353-359). -/
def queryDeleteRawSql (tableName whereSql : String) : String :=
  let s := "DELETE FROM " ++ tableName
  if whereSql = "" then s else s ++ " WHERE " ++ whereSql

/-- The shape of a predicate value: everything that determines the SQL text
(and the error message) without the data itself — the Python type, the
parameter name for `":name"` references, and the length for lists. -/
inductive ValShape where
  | nullv
  | strv
  | intv
  | boolv
  | paramRef (name : String)
  | listv (n : Nat)
  deriving DecidableEq, Repr

/-- Shape of a value. -/
def shapeOf : PyVal → ValShape
  | .scalar .null => .nullv
  | .scalar (.s v) => if v.startsWith ":" then .paramRef (v.drop 1) else .strv
  | .scalar (.i _) => .intv
  | .scalar (.b _) => .boolv
  | .list l => .listv l.length

/-- Two named predicates with the same structure: same column, same
operator, same value shape. -/
def condShapeEq (c₁ c₂ : Cond) : Prop :=
  c₁.column = c₂.column ∧ c₁.op = c₂.op ∧ shapeOf c₁.value = shapeOf c₂.value

/-- Pointwise shape equality of two named-condition maps. -/
def condsShapeEq (m₁ m₂ : List (String × Cond)) : Prop :=
  ∀ nm : String,
    match AList.get? m₁ nm, AList.get? m₂ nm with
    | none, none => True
    | some c₁, some c₂ => condShapeEq c₁ c₂
    | _, _ => False

/-- Python type name as a function of the shape (used to characterise the
error messages of `condToSql`). -/
def typeNameOfShape : ValShape → String
  | .nullv => "NoneType"
  | .strv => "str"
  | .paramRef _ => "str"
  | .intv => "int"
  | .boolv => "bool"
  | .listv _ => "list"

/-- Shape-level rendering of an IN / NOT IN predicate (derived
characterisation, see `condSqlShape`). -/
def inShapeSql (a : Adapter) (column op name : String) : ValShape → Except String String
  | .listv n =>
    if n = 0 then .ok (if op = "IN" then "1=0" else "1=1")
    else .ok (column ++ " " ++ op ++ " (" ++ String.intercalate ", "
        ((List.range n).map (fun i => a.placeholder ("c_" ++ name ++ "_" ++ toString i)))
        ++ ")")
  | sh => .error ("IN/NOT IN richiede lista, ricevuto " ++ typeNameOfShape sh)

/-- Shape-level rendering of a BETWEEN predicate (derived characterisation,
see `condSqlShape`). -/
def betweenShapeSql (a : Adapter) (column name : String) : ValShape → Except String String
  | .listv n =>
    if n = 2 then
      .ok (column ++ " BETWEEN " ++ a.placeholder ("c_" ++ name ++ "_low")
        ++ " AND " ++ a.placeholder ("c_" ++ name ++ "_high"))
    else .error "BETWEEN richiede lista di 2 elementi [low, high]"
  | _ => .error "BETWEEN richiede lista di 2 elementi [low, high]"

/-- Shape-level rendering of the remaining binary operators (derived
characterisation, see `condSqlShape`). -/
def defaultShapeSql (a : Adapter) (column op name : String) : ValShape → Except String String
  | .paramRef pn => .ok (column ++ " " ++ op ++ " " ++ a.placeholder pn)
  | _ => .ok (column ++ " " ++ op ++ " " ++ a.placeholder ("c_" ++ name))

/-- Derived characterisation (not source): the SQL text / error message that
`condToSql` produces, as a function of the column, the normalised operator
and the value's shape only.  The theorem `condToSql_shape_char` proves that
`condToSql` factors through this. -/
def condSqlShape (a : Adapter) (column op : String) (sh : ValShape) (name : String) :
    Except String String :=
  if !OPERATORS.contains op then
    .error ("Operatore '" ++ op ++ "' non supportato")
  else if op = "IS NULL" || op = "IS NOT NULL" then
    .ok (column ++ " " ++ op)
  else if op = "IN" || op = "NOT IN" then
    inShapeSql a column op name sh
  else if op = "BETWEEN" then
    betweenShapeSql a column name sh
  else
    defaultShapeSql a column op name sh

/-! ## Helper lemmas -/

theorem AList.get?_set_self {α : Type} (m : List (String × α)) (k : String) (v : α) :
    AList.get? (AList.set m k v) k = some v := by
  induction m with
  | nil => simp [AList.set, AList.get?]
  | cons h t ih =>
    obtain ⟨k', v'⟩ := h
    by_cases hk : k' = k
    · simp [AList.set, AList.get?, hk]
    · simp [AList.set, AList.get?, hk, ih]

theorem AList.get?_set_ne {α : Type} (m : List (String × α)) (k k' : String) (v : α)
    (h : k ≠ k') : AList.get? (AList.set m k v) k' = AList.get? m k' := by
  induction m with
  | nil => simp [AList.set, AList.get?, h]
  | cons hd t ih =>
    obtain ⟨k₀, v₀⟩ := hd
    by_cases hk : k₀ = k
    · subst hk
      simp [AList.set, AList.get?, h]
    · simp [AList.set, AList.get?, hk, ih]

theorem AList.get?_eq_none {α : Type} (m : List (String × α)) (k : String)
    (h : k ∉ m.map Prod.fst) : AList.get? m k = none := by
  induction m with
  | nil => rfl
  | cons hd t ih =>
    simp only [List.map_cons, List.mem_cons] at h
    push_neg at h
    have hne : hd.1 ≠ k := fun he => h.1 he.symm
    simp [AList.get?, hne, ih h.2]

theorem applyKwargs_cons (r : Row) (kv : String × Scalar) (t : List (String × Scalar)) :
    applyKwargs r (kv :: t) =
      applyKwargs (if kv.2 ≠ Scalar.null then AList.set r kv.1 kv.2 else r) t := rfl

theorem applyKwargs_get_not_mem (r : Row) (kwargs : List (String × Scalar)) (k : String)
    (h : k ∉ kwargs.map Prod.fst) :
    AList.get? (applyKwargs r kwargs) k = AList.get? r k := by
  induction kwargs generalizing r with
  | nil => rfl
  | cons kv t ih =>
    simp only [List.map_cons, List.mem_cons] at h
    push_neg at h
    rw [applyKwargs_cons, ih _ h.2]
    by_cases hv : kv.2 ≠ Scalar.null
    · rw [if_pos hv, AList.get?_set_ne _ _ _ _ (fun he => h.1 he.symm)]
    · rw [if_neg hv]

theorem applyKwargs_get_null (r : Row) (kwargs : List (String × Scalar)) (k : String)
    (hnd : (kwargs.map Prod.fst).Nodup) (hmem : (k, Scalar.null) ∈ kwargs) :
    AList.get? (applyKwargs r kwargs) k = AList.get? r k := by
  induction kwargs generalizing r with
  | nil => cases hmem
  | cons kv t ih =>
    rw [applyKwargs_cons]
    simp only [List.map_cons, List.nodup_cons] at hnd
    rcases List.mem_cons.mp hmem with heq | hmem'
    · rw [← heq]
      simp only [ne_eq, not_true_eq_false, if_false]
      exact applyKwargs_get_not_mem _ _ _ (by rw [← heq] at hnd; exact hnd.1)
    · have hk : kv.1 ≠ k := fun he => hnd.1 (he ▸ List.mem_map.mpr ⟨(k, Scalar.null), hmem', rfl⟩)
      rw [ih _ hnd.2 hmem']
      by_cases hv : kv.2 ≠ Scalar.null
      · rw [if_pos hv, AList.get?_set_ne _ _ _ _ hk]
      · rw [if_neg hv]

theorem applyKwargs_get_nonnull (r : Row) (kwargs : List (String × Scalar)) (k : String)
    (v : Scalar) (hnd : (kwargs.map Prod.fst).Nodup) (hmem : (k, v) ∈ kwargs)
    (hv : v ≠ Scalar.null) :
    AList.get? (applyKwargs r kwargs) k = some v := by
  induction kwargs generalizing r with
  | nil => cases hmem
  | cons kv t ih =>
    rw [applyKwargs_cons]
    simp only [List.map_cons, List.nodup_cons] at hnd
    rcases List.mem_cons.mp hmem with heq | hmem'
    · rw [← heq]
      simp only [ne_eq, hv, not_false_eq_true, if_true]
      rw [applyKwargs_get_not_mem _ _ _ (by rw [← heq] at hnd; exact hnd.1)]
      exact AList.get?_set_self _ _ _
    · exact ih _ hnd.2 hmem'

/-! ## C2: the `SqlDb.connection` transactional contract -/

/-- C2: for every use of `SqlDb.connection()`, the connection is committed
when the body exits normally (and no exception escapes when the commit also
succeeds); when the body raises, the connection is rolled back, the commit
never runs, and (when the rollback itself succeeds) the body's exception is
re-raised; and on every exit path — normal, exception, and failure of
`commit` or `rollback` themselves — the task-local slot is reset and the
connection is released. -/
theorem connection_commit_rollback_release (b c r : Bool) :
    (b = false → Ev.commit ∈ (connectionTrace b c r).1)
    ∧ (b = false → c = false → (connectionTrace b c r).2 = none)
    ∧ (b = true → Ev.rollback ∈ (connectionTrace b c r).1
        ∧ Ev.commit ∉ (connectionTrace b c r).1
        ∧ (r = false → (connectionTrace b c r).2 = some ExcKind.bodyExc))
    ∧ Ev.resetSlot ∈ (connectionTrace b c r).1
    ∧ Ev.release ∈ (connectionTrace b c r).1 := by
  cases b <;> cases c <;> cases r <;> decide

theorem connection_commit_rollback_release_witness :
    Ev.rollback ∈ (connectionTrace true false false).1
    ∧ Ev.commit ∉ (connectionTrace true false false).1
    ∧ (connectionTrace true false false).2 = some ExcKind.bodyExc
    ∧ Ev.resetSlot ∈ (connectionTrace true false false).1
    ∧ Ev.release ∈ (connectionTrace true false false).1 := by
  obtain ⟨-, -, h3, h4, h5⟩ := connection_commit_rollback_release true false false
  obtain ⟨r1, r2, r3⟩ := h3 rfl
  exact ⟨r1, r2, r3 rfl, h4, h5⟩

/-! ## C8: order-independence of most-derived discovery -/

/-- C8: for two discovered classes sharing an entity name where one is a
strict subclass of the other, `discover` registers the subclass regardless
of scan order; for unrelated classes the first-discovered one is kept. -/
theorem discover_most_derived_order_independent {C : Type} [DecidableEq C]
    (issub : C → C → Bool) (name : C → String) (a a' : C)
    (hname : name a = name a') :
    (issub a' a = true → issub a a' = false →
      discover issub name [] [a, a'] = [(name a, a')]
      ∧ discover issub name [] [a', a] = [(name a', a')])
    ∧ (issub a' a = false → issub a a' = false →
      discover issub name [] [a, a'] = [(name a, a)]
      ∧ discover issub name [] [a', a] = [(name a', a')]) := by
  constructor
  · intro h1 h2
    constructor
    · simp [discover, collectMostDerived, registerPhase, addCandidate,
        AList.set, AList.get?, hname, h1]
    · simp [discover, collectMostDerived, registerPhase, addCandidate,
        AList.set, AList.get?, hname, h2]
  · intro h1 h2
    constructor
    · simp [discover, collectMostDerived, registerPhase, addCandidate,
        AList.set, AList.get?, hname, h1]
    · simp [discover, collectMostDerived, registerPhase, addCandidate,
        AList.set, AList.get?, hname, h2]

theorem discover_most_derived_order_independent_witness :
    discover (fun x y : Nat => decide (x = 2 ∧ y = 1)) (fun _ => "t") [] [1, 2]
      = [("t", 2)]
    ∧ discover (fun x y : Nat => decide (x = 2 ∧ y = 1)) (fun _ => "t") [] [2, 1]
      = [("t", 2)] :=
  (discover_most_derived_order_independent
    (fun x y : Nat => decide (x = 2 ∧ y = 1)) (fun _ => "t") 1 2 rfl).1
    (by decide) (by decide)

/-! ## C3: the scoped record editor's missing-record behaviour -/

/-- C3 (code bug evidence): at the failing input — no matching row,
`insert_missing=False`, `ignore_missing=False` — `RecordUpdater` yields
`{}` at entry, and at a normal exit it neither raises a "not found" failure
nor writes anything, whether or not the body populated the record (the
`__aexit__` method contains no raise at all and its `ignore_missing` branch
is identical to the default branch).  The spec and the claim require a
"not found" failure at exit. -/
theorem record_updater_missing_silent :
    aenter [] [("id", Scalar.s "missing")] false false true [] =
      .ok ⟨[], none, false⟩
    ∧ aexit ⟨[], none, false⟩ [("id", Scalar.s "missing")] false = .none
    ∧ aexit ⟨[("name", Scalar.s "set-by-body")], none, false⟩
        [("id", Scalar.s "missing")] false = .none := by
  refine ⟨rfl, rfl, rfl⟩

/-! ## C4: `Table.record` single-row contract -/

/-- C4 counterexample: with `for_update=True` and two rows matching the key,
`Table.record` returns the first matching row even though
`ignore_duplicate` is false — the claim predicts `RecordDuplicateError` for
every value of the `for_update` flag. -/
theorem record_for_update_duplicate_counterexample :
    (List.filter (fun r => matchesWhere r [("id", Scalar.s "a")])
        [[("id", Scalar.s "a"), ("x", Scalar.i 1)],
         [("id", Scalar.s "a"), ("x", Scalar.i 2)]]).length = 2
    ∧ tableRecordEntry
        [[("id", Scalar.s "a"), ("x", Scalar.i 1)],
         [("id", Scalar.s "a"), ("x", Scalar.i 2)]]
        (some "id") (some (Scalar.s "a")) none false false true
      = .found [("id", Scalar.s "a"), ("x", Scalar.i 1)] := by
  refine ⟨rfl, rfl⟩

/-- C4 amended: `Table.record` (by pkey or where map) raises
`RecordNotFoundError` on no match unless `ignore_missing` (then the empty
map), returns the row on a unique match, and — only on the non-`for_update`
path — raises `RecordDuplicateError` on multiple matches unless
`ignore_duplicate` (then the first match); with `for_update` set the lookup
is a `fetch_one`, so the first matching row is returned without duplicate
detection. -/
theorem record_single_row_amended (rows : List Row) (eff : Row) (im igd fu : Bool) :
    ((rows.filter fun r => matchesWhere r eff) = [] →
      tableRecord rows eff im igd fu = if im then .found [] else .notFound)
    ∧ (∀ r, (rows.filter fun rr => matchesWhere rr eff) = [r] →
      tableRecord rows eff im igd fu = .found r)
    ∧ (∀ r r' t, (rows.filter fun rr => matchesWhere rr eff) = r :: r' :: t →
      tableRecord rows eff im igd fu =
        if fu then .found r
        else if igd then .found r
        else .duplicate (r :: r' :: t).length)
    ∧ (∀ pc pv, tableRecordEntry rows (some pc) (some pv) none im igd fu
        = tableRecord rows [(pc, pv)] im igd fu)
    ∧ (∀ w, tableRecordEntry rows none none (some w) im igd fu
        = tableRecord rows w im igd fu) := by
  refine ⟨?_, ?_, ?_, fun pc pv => rfl, fun w => rfl⟩
  · intro h
    cases fu <;> simp [tableRecord, h]
  · intro r h
    cases fu <;> simp [tableRecord, h]
  · intro r r' t h
    cases fu <;> simp [tableRecord, h, List.take]

theorem record_single_row_amended_witness :
    tableRecord [[("id", Scalar.s "a"), ("x", Scalar.i 1)]]
        [("id", Scalar.s "a")] false false false
      = .found [("id", Scalar.s "a"), ("x", Scalar.i 1)] :=
  (record_single_row_amended [[("id", Scalar.s "a"), ("x", Scalar.i 1)]]
      [("id", Scalar.s "a")] false false false).2.1
    [("id", Scalar.s "a"), ("x", Scalar.i 1)] (by decide)

/-! ## C10: `None`-valued initial kwargs are never applied -/

/-- C10: in the scoped record editor, a kwargs initial value of `None` is
never applied: the yielded record's entry for that key equals the entry of
the pre-kwargs base record (the loaded row, the seeded key fields, or the
empty dict), and is absent when the base record lacks the key (in
particular for a newly seeded record and a non-key column); only kwargs with
non-`None` values overwrite the record. -/
theorem record_updater_none_kwargs (rows : List Row) (w : Row) (im igm fu : Bool)
    (kwargs : List (String × Scalar)) (st : UpdaterState)
    (hnd : (kwargs.map Prod.fst).Nodup)
    (henter : aenter rows w im igm fu kwargs = .ok st) :
    ∃ base old ins, aenterCore rows w im igm fu = .ok (base, old, ins)
      ∧ st.record = applyKwargs base kwargs
      ∧ (∀ k, (k, Scalar.null) ∈ kwargs →
          AList.get? st.record k = AList.get? base k)
      ∧ (∀ k, (k, Scalar.null) ∈ kwargs → k ∉ base.map Prod.fst →
          AList.get? st.record k = none)
      ∧ (∀ k v, (k, v) ∈ kwargs → v ≠ Scalar.null →
          AList.get? st.record k = some v) := by
  unfold aenter at henter
  cases hcore : aenterCore rows w im igm fu with
  | error e => rw [hcore] at henter; cases henter
  | ok x =>
    rw [hcore] at henter
    simp only [Except.map] at henter
    obtain ⟨base, old, ins⟩ := x
    injection henter with hst
    refine ⟨base, old, ins, rfl, ?_, ?_, ?_, ?_⟩
    · rw [← hst]
    · intro k hk
      rw [← hst]
      exact applyKwargs_get_null base kwargs k hnd hk
    · intro k hk hnb
      rw [← hst]
      rw [applyKwargs_get_null base kwargs k hnd hk]
      exact AList.get?_eq_none base k hnb
    · intro k v hk hv
      rw [← hst]
      exact applyKwargs_get_nonnull base kwargs k v hnd hk hv

theorem record_updater_none_kwargs_witness :
    ∃ st : UpdaterState,
      aenter [[("id", Scalar.s "t1"), ("name", Scalar.s "Old")]]
          [("id", Scalar.s "t1")] false false true
          [("name", Scalar.null), ("host", Scalar.s "h")] = .ok st
      ∧ AList.get? st.record "name" = some (Scalar.s "Old")
      ∧ AList.get? st.record "host" = some (Scalar.s "h") := by
  obtain ⟨base, old, ins, hcore, -, hnull, -, hnn⟩ :=
    record_updater_none_kwargs
      [[("id", Scalar.s "t1"), ("name", Scalar.s "Old")]] [("id", Scalar.s "t1")]
      false false true [("name", Scalar.null), ("host", Scalar.s "h")]
      ⟨[("id", Scalar.s "t1"), ("name", Scalar.s "Old"), ("host", Scalar.s "h")],
        some [("id", Scalar.s "t1"), ("name", Scalar.s "Old")], false⟩
      (by decide) rfl
  have hb : base = [("id", Scalar.s "t1"), ("name", Scalar.s "Old")] := by
    have hcomp : aenterCore [[("id", Scalar.s "t1"), ("name", Scalar.s "Old")]]
        [("id", Scalar.s "t1")] false false true
        = .ok ([("id", Scalar.s "t1"), ("name", Scalar.s "Old")],
            some [("id", Scalar.s "t1"), ("name", Scalar.s "Old")], false) := rfl
    rw [hcomp] at hcore
    exact (congrArg (fun x => x.1) (Except.ok.inj hcore)).symm
  refine ⟨⟨[("id", Scalar.s "t1"), ("name", Scalar.s "Old"), ("host", Scalar.s "h")],
      some [("id", Scalar.s "t1"), ("name", Scalar.s "Old")], false⟩, rfl, ?_, ?_⟩
  · rw [hnull "name" (by decide), hb]
    rfl
  · exact hnn "host" (Scalar.s "h") (by decide) (by decide)

/-! ## C9: `get_tenant_by_token` -/

/-- C9 counterexample: a matching tenant whose `api_key_expires_at` is `0`
(non-null, and earlier than the current time 100) is returned as valid,
because the Python guard `if expires_at and expires_at < int(time.time())`
treats the falsy `0` as "no expiry"; the claim predicts `None`. -/
theorem get_tenant_by_token_zero_expiry_counterexample :
    (0 : Int) < 100
    ∧ Scalar.i 0 ≠ Scalar.null
    ∧ get_tenant_by_token (fun s => "H" ++ s)
        [[("id", Scalar.s "t1"), ("api_key_hash", Scalar.s "Htok"),
          ("api_key_expires_at", Scalar.i 0)]] 100 "tok"
      = .ok (some [("id", Scalar.s "t1"), ("api_key_hash", Scalar.s "Htok"),
          ("api_key_expires_at", Scalar.i 0), ("active", Scalar.b true)]) :=
  ⟨by decide, by decide, rfl⟩

/-- C9 amended: `get_tenant_by_token` hashes the token with the fixed
digest, selects the tenant row whose `api_key_hash` equals the digest, and
returns `None` when no row matches or when the matching row's
`api_key_expires_at` is truthy — non-null **and nonzero** — and earlier
than the current time; otherwise it returns that tenant row (with its
`active` column decoded to a boolean). -/
theorem get_tenant_by_token_amended (sha256 : String → String) (rows : List Row)
    (now : Int) (tok : String) :
    ((rows.filter fun r => matchesWhere r [("api_key_hash", Scalar.s (sha256 tok))]) = [] →
      get_tenant_by_token sha256 rows now tok = .ok none)
    ∧ (∀ t, (rows.filter fun r =>
          matchesWhere r [("api_key_hash", Scalar.s (sha256 tok))]) = [t] →
        (∀ m : Int, AList.get? t "api_key_expires_at" = some (Scalar.i m) →
          get_tenant_by_token sha256 rows now tok =
            if m ≠ 0 ∧ m < now then .ok none else .ok (some (decodeActive t)))
        ∧ ((AList.get? t "api_key_expires_at").getD Scalar.null = Scalar.null →
          get_tenant_by_token sha256 rows now tok = .ok (some (decodeActive t)))) := by
  constructor
  · intro h
    simp [get_tenant_by_token, tableRecord, h]
  · intro t h
    have htne : t.isEmpty = false := by
      have hmem : t ∈ rows.filter fun r =>
          matchesWhere r [("api_key_hash", Scalar.s (sha256 tok))] := by
        rw [h]; exact List.mem_singleton_self t
      have hmatch := (List.mem_filter.mp hmem).2
      cases t with
      | nil => simp [matchesWhere, AList.get?] at hmatch
      | cons a b => rfl
    constructor
    · intro m hm
      by_cases h0 : m = 0
      · subst h0
        simp [get_tenant_by_token, tableRecord, h, htne, hm, truthyScalar, scalarLtInt]
      · by_cases hlt : m < now
        · simp [get_tenant_by_token, tableRecord, h, htne, hm, truthyScalar,
            scalarLtInt, h0, hlt]
        · simp [get_tenant_by_token, tableRecord, h, htne, hm, truthyScalar,
            scalarLtInt, h0, hlt]
    · intro hnull
      simp [get_tenant_by_token, tableRecord, h, htne, hnull, truthyScalar]

theorem get_tenant_by_token_amended_witness :
    get_tenant_by_token (fun s => "H" ++ s)
        [[("id", Scalar.s "t1"), ("api_key_hash", Scalar.s "Htok"),
          ("api_key_expires_at", Scalar.i 50)]] 100 "tok" = .ok none := by
  have h := ((get_tenant_by_token_amended (fun s => "H" ++ s)
      [[("id", Scalar.s "t1"), ("api_key_hash", Scalar.s "Htok"),
        ("api_key_expires_at", Scalar.i 50)]] 100 "tok").2
      [("id", Scalar.s "t1"), ("api_key_hash", Scalar.s "Htok"),
        ("api_key_expires_at", Scalar.i 50)] rfl).1 50 rfl
  simpa using h

/-! ## C1: tenant-id injection in `BaseEndpoint.invoke` -/

/-- C1 counterexample: a tenant row with an empty-string `id` and a valid
key hash — the lookup succeeds, but `invoke`'s `if tenant_id:` guard is
falsy for the empty string, so `tenant_id` is not injected and no error is
raised; the claim predicts injection of that tenant's id. -/
theorem invoke_inject_empty_id_counterexample :
    get_tenant_by_token (fun s => "H" ++ s)
        [[("id", Scalar.s ""), ("api_key_hash", Scalar.s "Htok")]] 0 "tok"
      = .ok (some [("id", Scalar.s ""), ("api_key_hash", Scalar.s "Htok"),
          ("active", Scalar.b true)])
    ∧ invokeResolveStep (fun s => "H" ++ s)
        [[("id", Scalar.s ""), ("api_key_hash", Scalar.s "Htok")]] 0 []
        (some "tok") false
      = .ok []
    ∧ AList.hasKey ([] : List (String × Scalar)) "tenant_id" = false :=
  ⟨rfl, rfl, rfl⟩

/-- C1 amended: for `invoke` with a truthy token, `is_admin` false and no
`tenant_id` key in the parameters: when the tenant lookup succeeds the key
`tenant_id` is injected with that tenant's id provided the id is truthy
(non-empty); a falsy id leaves the parameters unchanged without error; when
the lookup finds no tenant, the invalid-token error is raised.  When the
token is empty or absent, or `is_admin` is true, or `tenant_id` is already
present, the parameters are returned unchanged (for every tenant store, so
no lookup is observable). -/
theorem invoke_tenant_resolution_amended (sha256 : String → String)
    (tenantRows : List Row) (now : Int) (params : List (String × Scalar))
    (apiToken : Option String) (isAdmin : Bool) :
    (truthyOptStr apiToken = true → isAdmin = false →
      AList.hasKey params "tenant_id" = false →
      (∀ t tid, get_tenant_by_token sha256 tenantRows now (apiToken.getD "")
            = .ok (some t) →
          AList.get? t "id" = some tid →
          invokeResolveStep sha256 tenantRows now params apiToken isAdmin =
            if truthyScalar tid then .ok (AList.set params "tenant_id" tid)
            else .ok params)
      ∧ (get_tenant_by_token sha256 tenantRows now (apiToken.getD "") = .ok none →
          invokeResolveStep sha256 tenantRows now params apiToken isAdmin =
            .error .invalidToken))
    ∧ ((truthyOptStr apiToken = false ∨ isAdmin = true
        ∨ AList.hasKey params "tenant_id" = true) →
      invokeResolveStep sha256 tenantRows now params apiToken isAdmin = .ok params) := by
  constructor
  · intro ht ha hp
    constructor
    · intro t tid hget hid
      simp [invokeResolveStep, ht, ha, hp, hget, hid]
    · intro hget
      simp [invokeResolveStep, ht, ha, hp, hget]
  · intro hcase
    rcases hcase with h | h | h <;> simp [invokeResolveStep, h]

theorem invoke_tenant_resolution_amended_witness :
    invokeResolveStep (fun s => "H" ++ s)
        [[("id", Scalar.s "t1"), ("api_key_hash", Scalar.s "Htok")]] 0 []
        (some "tok") false
      = .ok [("tenant_id", Scalar.s "t1")] := by
  have h := ((invoke_tenant_resolution_amended (fun s => "H" ++ s)
      [[("id", Scalar.s "t1"), ("api_key_hash", Scalar.s "Htok")]] 0 []
      (some "tok") false).1 (by decide) rfl rfl).1
      [("id", Scalar.s "t1"), ("api_key_hash", Scalar.s "Htok"), ("active", Scalar.b true)]
      (Scalar.s "t1") rfl rfl
  simpa using h

/-! ## C5: the admin-only authentication gate -/

/-- C5 counterexample: with an admin token configured and a presented token
different from it, a tenant row whose stored key hash matches the token but
whose `api_key_expires_at` is `0` — non-null and earlier than the current
time 100, i.e. an *expired* key — still yields HTTP 403: the gate's tenant
lookup goes through `get_tenant_by_token`, whose truthiness guard treats the
falsy `0` as "never expires".  The claim's case analysis reserves 403 for
live (non-expired) tenant keys and requires 401 for any other presented
token. -/
theorem require_admin_token_expired_tenant_counterexample :
    (0 : Int) < 100
    ∧ Scalar.i 0 ≠ Scalar.null
    ∧ ([[("id", Scalar.s "t1"), ("api_key_hash", Scalar.s "Htok"),
          ("api_key_expires_at", Scalar.i 0)]].filter fun r =>
        matchesWhere r [("api_key_hash", Scalar.s ((fun s => "H" ++ s) "tok"))])
      = [[("id", Scalar.s "t1"), ("api_key_hash", Scalar.s "Htok"),
          ("api_key_expires_at", Scalar.i 0)]]
    ∧ ("tok" : String) ≠ "adm"
    ∧ require_admin_token (fun s => "H" ++ s)
        [[("id", Scalar.s "t1"), ("api_key_hash", Scalar.s "Htok"),
          ("api_key_expires_at", Scalar.i 0)]] 100 (some "adm") (some "tok")
      = .http403 :=
  ⟨by decide, by decide, rfl, by decide, rfl⟩

/-- C5 amended: `require_admin_token` implements this case analysis, reading
"no token presented" as the Python-falsy header value (absent or empty
string): (a) no token, no configured admin token → allow; (b) no token,
admin configured → 401; (c) token equal to the configured admin token →
allow; (d) a token (other than the admin token) accepted by the tenant
lookup `get_tenant_by_token` → 403 — acceptance treats a zero stored expiry
as never-expiring, so it is weaker than "live (non-expired)"; (e) a token
the lookup rejects → 401. -/
theorem require_admin_token_cases (sha256 : String → String) (tenantRows : List Row)
    (now : Int) (expected apiToken : Option String) :
    (truthyOptStr apiToken = false → expected = none →
      require_admin_token sha256 tenantRows now expected apiToken = .allow)
    ∧ (∀ e, truthyOptStr apiToken = false → expected = some e →
      require_admin_token sha256 tenantRows now expected apiToken = .http401)
    ∧ (∀ tok, apiToken = some tok → tok ≠ "" → expected = some tok →
      require_admin_token sha256 tenantRows now expected apiToken = .allow)
    ∧ (∀ tok t, apiToken = some tok → tok ≠ "" →
      (∀ e, expected = some e → secretsCompareDigest tok e = false) →
      get_tenant_by_token sha256 tenantRows now tok = .ok (some t) →
      require_admin_token sha256 tenantRows now expected apiToken = .http403)
    ∧ (∀ tok, apiToken = some tok → tok ≠ "" →
      (∀ e, expected = some e → secretsCompareDigest tok e = false) →
      get_tenant_by_token sha256 tenantRows now tok = .ok none →
      require_admin_token sha256 tenantRows now expected apiToken = .http401) := by
  refine ⟨?_, ?_, ?_, ?_, ?_⟩
  · intro ht he
    simp [require_admin_token, ht, he]
  · intro e ht he
    simp [require_admin_token, ht, he]
  · intro tok htok hne he
    subst htok he
    simp [require_admin_token, truthyOptStr, hne, secretsCompareDigest]
  · intro tok t htok hne hcmp hget
    subst htok
    cases hexp : expected with
    | none =>
      simp [require_admin_token, truthyOptStr, hne, hget]
    | some e =>
      have := hcmp e hexp
      simp [require_admin_token, truthyOptStr, hne, this, hget]
  · intro tok htok hne hcmp hget
    subst htok
    cases hexp : expected with
    | none =>
      simp [require_admin_token, truthyOptStr, hne, hget]
    | some e =>
      have := hcmp e hexp
      simp [require_admin_token, truthyOptStr, hne, this, hget]

theorem require_admin_token_cases_witness :
    require_admin_token (fun s => "H" ++ s) [] 0 (some "adm") (some "adm") = .allow :=
  (require_admin_token_cases (fun s => "H" ++ s) [] 0 (some "adm") (some "adm")).2.2.1
    "adm" rfl (by decide) rfl

/-! ## Helper lemmas for the SQL-text independence claims -/

theorem map_fst_fun_congr {α γ : Type} (g : String → γ) :
    ∀ (v₁ v₂ : List (String × α)), v₁.map Prod.fst = v₂.map Prod.fst →
      v₁.map (fun kv => g kv.1) = v₂.map (fun kv => g kv.1)
  | [], [], _ => rfl
  | (k₁, a₁) :: t₁, (k₂, a₂) :: t₂, h => by
    simp only [List.map_cons, List.cons.injEq] at h ⊢
    exact ⟨congrArg g h.1, map_fst_fun_congr g t₁ t₂ h.2⟩
  | [], _ :: _, h => by simp at h
  | _ :: _, [], h => by simp at h

theorem isEmpty_eq_of_map_fst {α : Type} {v₁ v₂ : List (String × α)}
    (h : v₁.map Prod.fst = v₂.map Prod.fst) : v₁.isEmpty = v₂.isEmpty := by
  cases v₁ <;> cases v₂ <;> simp_all

theorem condToSql_shape_char (a : Adapter) (c : Cond) (nm : String) (p : Params) :
    (condToSql a c nm p).map Prod.fst =
      condSqlShape a c.column (strUpper (c.op.getD "=")) (shapeOf c.value) nm := by
  obtain ⟨col, opo, v⟩ := c
  simp only [condToSql, condSqlShape]
  cases v with
  | scalar sv =>
    cases sv with
    | null =>
      split_ifs <;>
        first
        | rfl
        | simp_all [shapeOf, inShapeSql, betweenShapeSql, defaultShapeSql,
            pyTypeName, typeNameOfShape, Except.map]
    | s str =>
      by_cases hs : str.startsWith ":" <;>
        split_ifs <;>
        simp_all [shapeOf, inShapeSql, betweenShapeSql, defaultShapeSql,
          pyTypeName, typeNameOfShape, Except.map]
    | i n =>
      split_ifs <;>
        first
        | rfl
        | simp_all [shapeOf, inShapeSql, betweenShapeSql, defaultShapeSql,
            pyTypeName, typeNameOfShape, Except.map]
    | b bv =>
      split_ifs <;>
        first
        | rfl
        | simp_all [shapeOf, inShapeSql, betweenShapeSql, defaultShapeSql,
            pyTypeName, typeNameOfShape, Except.map]
  | list l =>
    cases l with
    | nil =>
      split_ifs <;>
        first
        | rfl
        | simp_all [shapeOf, inShapeSql, betweenShapeSql, defaultShapeSql,
            pyTypeName, typeNameOfShape, Except.map]
    | cons x t =>
      cases t with
      | nil =>
        split_ifs <;>
          first
          | rfl
          | simp_all [shapeOf, inShapeSql, betweenShapeSql, defaultShapeSql,
              pyTypeName, typeNameOfShape, Except.map]
      | cons y t2 =>
        cases t2 with
        | nil =>
          split_ifs <;>
            first
            | rfl
            | simp_all [shapeOf, inShapeSql, betweenShapeSql, defaultShapeSql,
                pyTypeName, typeNameOfShape, Except.map]
        | cons z t3 =>
          split_ifs <;>
            first
            | rfl
            | simp_all [shapeOf, inShapeSql, betweenShapeSql, defaultShapeSql,
                pyTypeName, typeNameOfShape, Except.map]

theorem takeWhile_all {p : Char → Bool} :
    ∀ (l : List Char), (∀ c ∈ l, p c = true) → l.takeWhile p = l
  | [], _ => rfl
  | c :: t, h => by
    simp only [List.takeWhile_cons, h c (List.mem_cons_self c t)]
    exact congrArg (c :: ·) (takeWhile_all t fun x hx => h x (List.mem_cons_of_mem c hx))

theorem substChars_fst_eq (a : Adapter) (conds₁ conds₂ : List (String × Cond))
    (hsh : condsShapeEq conds₁ conds₂) :
    ∀ (cs : List Char) (p₁ p₂ : Params),
      (substChars a conds₁ cs p₁).map Prod.fst
        = (substChars a conds₂ cs p₂).map Prod.fst := by
  have main : ∀ (N : Nat) (cs : List Char), cs.length ≤ N → ∀ (p₁ p₂ : Params),
      (substChars a conds₁ cs p₁).map Prod.fst
        = (substChars a conds₂ cs p₂).map Prod.fst := by
    intro N
    induction N with
    | zero =>
      intro cs hlen p₁ p₂
      have hnil : cs = [] := List.length_eq_zero.mp (Nat.le_zero.mp hlen)
      subst hnil
      simp [substChars, Except.map]
    | succ N ih =>
      intro cs hlen p₁ p₂
      cases cs with
      | nil => simp [substChars, Except.map]
      | cons ch rest =>
        simp only [List.length_cons, Nat.succ_le_succ_iff] at hlen
        by_cases hch : ch = '$'
        · subst hch
          simp only [substChars, if_pos (rfl : ('$' : Char) = '$')]
          by_cases hempty : (rest.takeWhile isWordChar).isEmpty = true
          · rw [if_pos hempty, if_pos hempty]
            have hr := ih rest hlen p₁ p₂
            rcases e1 : substChars a conds₁ rest p₁ with m1 | ⟨t1, q1⟩ <;>
              rcases e2 : substChars a conds₂ rest p₂ with m2 | ⟨t2, q2⟩
            · simp only [e1, e2, Except.map] at hr ⊢
              exact hr
            · simp [e1, e2, Except.map] at hr
            · simp [e1, e2, Except.map] at hr
            · simp only [e1, e2, Except.map, Except.ok.injEq] at hr
              simp [e1, e2, Except.map, hr]
          · rw [if_neg hempty, if_neg hempty]
            have hcond := hsh (String.mk (rest.takeWhile isWordChar))
            rcases g1 : AList.get? conds₁ (String.mk (rest.takeWhile isWordChar))
                with _ | c₁ <;>
              rcases g2 : AList.get? conds₂ (String.mk (rest.takeWhile isWordChar))
                with _ | c₂ <;>
              simp only [g1, g2] at hcond ⊢
            · rfl
            · obtain ⟨hcol, hop2, hval⟩ := hcond
              have hcc : (condToSql a c₁ (String.mk (rest.takeWhile isWordChar)) p₁).map
                    Prod.fst
                  = (condToSql a c₂ (String.mk (rest.takeWhile isWordChar)) p₂).map
                    Prod.fst := by
                rw [condToSql_shape_char, condToSql_shape_char, hcol, hop2, hval]
              rcases f1 : condToSql a c₁ (String.mk (rest.takeWhile isWordChar)) p₁
                  with m1 | ⟨sql₁, q₁⟩ <;>
                rcases f2 : condToSql a c₂ (String.mk (rest.takeWhile isWordChar)) p₂
                  with m2 | ⟨sql₂, q₂⟩
              · simp only [f1, f2, Except.map, Except.error.injEq] at hcc ⊢
                simp [hcc]
              · simp [f1, f2, Except.map] at hcc
              · simp [f1, f2, Except.map] at hcc
              · simp only [f1, f2, Except.map, Except.ok.injEq] at hcc
                have hd : (rest.dropWhile isWordChar).length ≤ N :=
                  le_trans (List.dropWhile_suffix _).length_le hlen
                have hr := ih (rest.dropWhile isWordChar) hd q₁ q₂
                rcases e1 : substChars a conds₁ (rest.dropWhile isWordChar) q₁
                    with n1 | ⟨t1, r1⟩ <;>
                  rcases e2 : substChars a conds₂ (rest.dropWhile isWordChar) q₂
                    with n2 | ⟨t2, r2⟩
                · simp only [e1, e2, Except.map] at hr ⊢
                  exact hr
                · simp [e1, e2, Except.map] at hr
                · simp [e1, e2, Except.map] at hr
                · simp only [e1, e2, Except.map, Except.ok.injEq] at hr
                  simp [e1, e2, Except.map, hr, hcc]
        · simp only [substChars, if_neg hch]
          have hr := ih rest hlen p₁ p₂
          rcases e1 : substChars a conds₁ rest p₁ with m1 | ⟨t1, q1⟩ <;>
            rcases e2 : substChars a conds₂ rest p₂ with m2 | ⟨t2, q2⟩
          · simp only [e1, e2, Except.map] at hr ⊢
            exact hr
          · simp [e1, e2, Except.map] at hr
          · simp [e1, e2, Except.map] at hr
          · simp only [e1, e2, Except.map, Except.ok.injEq] at hr
            simp [e1, e2, Except.map, hr]
  intro cs p₁ p₂
  exact main cs.length cs (le_refl _) p₁ p₂

theorem buildExpression_fst_eq (a : Adapter) (e : String)
    (conds₁ conds₂ : List (String × Cond)) (p₁ p₂ : Params)
    (hsh : condsShapeEq conds₁ conds₂) :
    (buildExpression a e conds₁ p₁).map Prod.fst
      = (buildExpression a e conds₂ p₂).map Prod.fst := by
  unfold buildExpression
  generalize e.toList = cs
  have h := substChars_fst_eq a conds₁ conds₂ hsh cs p₁ p₂
  rcases e1 : substChars a conds₁ cs p₁ with m1 | ⟨t1, q1⟩ <;>
    rcases e2 : substChars a conds₂ cs p₂ with m2 | ⟨t2, q2⟩
  · simp only [e1, e2, Except.map, Except.error.injEq] at h ⊢
    rw [h]
  · simp [e1, e2, Except.map] at h
  · simp [e1, e2, Except.map] at h
  · simp only [e1, e2, Except.map, Except.ok.injEq] at h ⊢
    rw [h]

/-! ## C6: SQL text is independent of user-supplied data values -/

/-- C6: for every CRUD helper of `SqlDb` (`insert`, `select`, `update`,
`delete`, `exists`, `count`) and for the query-builder's WHERE rendering and
raw UPDATE, the generated SQL text depends only on the table, the column /
key structure and the predicate structure (column, operator, value shape —
list arity and `":name"` reference names), never on the data values
themselves: two calls differing only in bound values produce
character-identical SQL. -/
theorem sql_text_value_independent :
    (∀ (a : Adapter) (t : String) (v₁ v₂ : List (String × Scalar)),
      v₁.map Prod.fst = v₂.map Prod.fst → insertSql a t v₁ = insertSql a t v₂)
    ∧ (∀ (a : Adapter) (t : String) (cols : List String) (ob : String) (lim : Nat)
        (w₁ w₂ : List (String × Scalar)), w₁.map Prod.fst = w₂.map Prod.fst →
      selectSql a t cols w₁ ob lim = selectSql a t cols w₂ ob lim)
    ∧ (∀ (a : Adapter) (t : String) (vs₁ vs₂ ws₁ ws₂ : List (String × Scalar)),
      vs₁.map Prod.fst = vs₂.map Prod.fst → ws₁.map Prod.fst = ws₂.map Prod.fst →
      updateSql a t vs₁ ws₁ = updateSql a t vs₂ ws₂)
    ∧ (∀ (a : Adapter) (t : String) (w₁ w₂ : List (String × Scalar)),
      w₁.map Prod.fst = w₂.map Prod.fst → deleteSql a t w₁ = deleteSql a t w₂)
    ∧ (∀ (a : Adapter) (t : String) (w₁ w₂ : List (String × Scalar)),
      w₁.map Prod.fst = w₂.map Prod.fst → existsSql a t w₁ = existsSql a t w₂)
    ∧ (∀ (a : Adapter) (t : String) (w₁ w₂ : List (String × Scalar)),
      w₁.map Prod.fst = w₂.map Prod.fst → countSql a t w₁ = countSql a t w₂)
    ∧ (∀ (a : Adapter) (w₁ w₂ : List (String × PyVal)),
      w₁.map Prod.fst = w₂.map Prod.fst →
      (buildSimple a w₁).1 = (buildSimple a w₂).1)
    ∧ (∀ (a : Adapter) (c₁ c₂ : Cond) (nm : String) (p₁ p₂ : Params),
      condShapeEq c₁ c₂ →
      (condToSql a c₁ nm p₁).map Prod.fst = (condToSql a c₂ nm p₂).map Prod.fst)
    ∧ (∀ (a : Adapter) (e : String) (conds₁ conds₂ : List (String × Cond))
        (p₁ p₂ : Params), condsShapeEq conds₁ conds₂ →
      (buildExpression a e conds₁ p₁).map Prod.fst
        = (buildExpression a e conds₂ p₂).map Prod.fst)
    ∧ (∀ (a : Adapter) (t : String) (vals₁ vals₂ : List (String × PyVal))
        (wsql : String), vals₁.map Prod.fst = vals₂.map Prod.fst →
      queryUpdateRawSql a t vals₁ wsql = queryUpdateRawSql a t vals₂ wsql) := by
  refine ⟨?_, ?_, ?_, ?_, ?_, ?_, ?_, ?_, ?_, ?_⟩
  · intro a t v₁ v₂ h
    simp only [insertSql]
    rw [h]
  · intro a t cols ob lim w₁ w₂ h
    have h1 := isEmpty_eq_of_map_fst h
    have h2 := map_fst_fun_congr (fun k => a.sqlName k ++ " = " ++ a.placeholder k)
      w₁ w₂ h
    simp only [selectSql, h1, h2]
  · intro a t vs₁ vs₂ ws₁ ws₂ hv hw
    have h1 := map_fst_fun_congr
      (fun k => a.sqlName k ++ " = " ++ a.placeholder ("val_" ++ k)) vs₁ vs₂ hv
    have h2 := map_fst_fun_congr
      (fun k => a.sqlName k ++ " = " ++ a.placeholder ("whr_" ++ k)) ws₁ ws₂ hw
    simp only [updateSql, h1, h2]
  · intro a t w₁ w₂ h
    have h1 := map_fst_fun_congr (fun k => a.sqlName k ++ " = " ++ a.placeholder k)
      w₁ w₂ h
    simp only [deleteSql, h1]
  · intro a t w₁ w₂ h
    have h1 := map_fst_fun_congr (fun k => a.sqlName k ++ " = " ++ a.placeholder k)
      w₁ w₂ h
    simp only [existsSql, h1]
  · intro a t w₁ w₂ h
    have h1 := isEmpty_eq_of_map_fst h
    have h2 := map_fst_fun_congr (fun k => a.sqlName k ++ " = " ++ a.placeholder k)
      w₁ w₂ h
    simp only [countSql, h1, h2]
  · intro a w₁ w₂ h
    have h1 := isEmpty_eq_of_map_fst h
    have h2 := map_fst_fun_congr (fun k => k ++ " = " ++ a.placeholder ("w_" ++ k))
      w₁ w₂ h
    by_cases hw : w₁.isEmpty = true
    · have hw2 : w₂.isEmpty = true := h1 ▸ hw
      simp [buildSimple, hw, hw2]
    · have hw2 : ¬ w₂.isEmpty = true := h1 ▸ hw
      simp [buildSimple, hw, hw2, h2]
  · intro a c₁ c₂ nm p₁ p₂ hsh
    obtain ⟨hcol, hop2, hval⟩ := hsh
    rw [condToSql_shape_char, condToSql_shape_char, hcol, hop2, hval]
  · intro a e conds₁ conds₂ p₁ p₂ hsh
    exact buildExpression_fst_eq a e conds₁ conds₂ p₁ p₂ hsh
  · intro a t vals₁ vals₂ wsql h
    have h1 := map_fst_fun_congr (fun k => k ++ " = " ++ a.placeholder ("upd_" ++ k))
      vals₁ vals₂ h
    simp only [queryUpdateRawSql, h1]

theorem sql_text_value_independent_witness :
    insertSql sqliteAdapter "tenants"
        [("id", Scalar.s "acme"), ("name", Scalar.s "Acme")]
      = insertSql sqliteAdapter "tenants"
        [("id", Scalar.s "x; DROP TABLE tenants--"), ("name", Scalar.null)] :=
  sql_text_value_independent.1 sqliteAdapter "tenants"
    [("id", Scalar.s "acme"), ("name", Scalar.s "Acme")]
    [("id", Scalar.s "x; DROP TABLE tenants--"), ("name", Scalar.null)]
    (by decide)

/-! ## C7: `WhereBuilder` edge cases -/

theorem substChars_unknown_name (a : Adapter) (conds : List (String × Cond))
    (nmChars : List Char) (hne : nmChars ≠ [])
    (hword : ∀ ch ∈ nmChars, isWordChar ch = true)
    (hget : AList.get? conds (String.mk nmChars) = none) :
    ∀ (w : List Char), (∀ ch ∈ w, ch ≠ '$') → ∀ (p : Params),
      substChars a conds (w ++ '$' :: nmChars) p =
        .error ("Condizione '" ++ String.mk nmChars ++ "' non trovata") := by
  intro w
  induction w with
  | nil =>
    intro _ p
    have htake : nmChars.takeWhile isWordChar = nmChars := takeWhile_all nmChars hword
    have hemp : nmChars.isEmpty = false := by
      cases nmChars with
      | nil => exact absurd rfl hne
      | cons x t => rfl
    simp only [List.nil_append, substChars, if_pos (rfl : ('$' : Char) = '$'),
      htake, hemp, Bool.false_eq_true, if_false, hget]
    simp
  | cons ch w' ih =>
    intro hdol p
    have hch : ch ≠ '$' := hdol ch (List.mem_cons_self ch w')
    simp only [List.cons_append, substChars, if_neg hch]
    rw [ih (fun c hc => hdol c (List.mem_cons_of_mem ch hc)) p]

/-- C7: in the query builder's named-predicate rendering, an `IN` predicate
with an empty list renders exactly `1=0` and an empty `NOT IN` renders
`1=1`, both binding no parameters; an operator outside the closed operator
set raises an error; a `$name` in the expression with no matching named
condition raises an error; and a BETWEEN whose value is not a list of
length 2 raises an error. -/
theorem where_builder_edge_cases :
    (∀ (a : Adapter) (c : Cond) (nm : String) (p : Params),
      strUpper (c.op.getD "=") = "IN" → c.value = PyVal.list [] →
      condToSql a c nm p = .ok ("1=0", p))
    ∧ (∀ (a : Adapter) (c : Cond) (nm : String) (p : Params),
      strUpper (c.op.getD "=") = "NOT IN" → c.value = PyVal.list [] →
      condToSql a c nm p = .ok ("1=1", p))
    ∧ (∀ (a : Adapter) (c : Cond) (nm : String) (p : Params),
      OPERATORS.contains (strUpper (c.op.getD "=")) = false →
      condToSql a c nm p =
        .error ("Operatore '" ++ strUpper (c.op.getD "=") ++ "' non supportato"))
    ∧ (∀ (a : Adapter) (conds : List (String × Cond)) (p : Params)
        (w nmChars : List Char),
      (∀ ch ∈ w, ch ≠ '$') → nmChars ≠ [] →
      (∀ ch ∈ nmChars, isWordChar ch = true) →
      AList.get? conds (String.mk nmChars) = none →
      buildExpression a (String.mk (w ++ '$' :: nmChars)) conds p =
        .error ("Condizione '" ++ String.mk nmChars ++ "' non trovata"))
    ∧ (∀ (a : Adapter) (c : Cond) (nm : String) (p : Params),
      strUpper (c.op.getD "=") = "BETWEEN" →
      (∀ l, c.value = PyVal.list l → l.length ≠ 2) →
      condToSql a c nm p = .error "BETWEEN richiede lista di 2 elementi [low, high]") := by
  refine ⟨?_, ?_, ?_, ?_, ?_⟩
  · intro a c nm p hop hval
    simp [condToSql, hop, hval]
    decide
  · intro a c nm p hop hval
    simp [condToSql, hop, hval]
    decide
  · intro a c nm p hop
    simp only [condToSql, hop]
    simp
  · intro a conds p w nmChars hdol hne hword hget
    unfold buildExpression
    have hstr : (String.mk (w ++ '$' :: nmChars)).toList = w ++ '$' :: nmChars := rfl
    rw [hstr, substChars_unknown_name a conds nmChars hne hword hget w hdol p]
  · intro a c nm p hop hlen
    have hc1 : (!OPERATORS.contains "BETWEEN") = false := by decide
    have hc2 : (decide ("BETWEEN" = "IS NULL") || decide ("BETWEEN" = "IS NOT NULL"))
        = false := by decide
    have hc3 : (decide ("BETWEEN" = "IN") || decide ("BETWEEN" = "NOT IN"))
        = false := by decide
    rcases hv : c.value with sv | l
    · simp [condToSql, hop, hv]
      decide
    · have h2 : l.length ≠ 2 := hlen l hv
      cases l with
      | nil =>
        simp [condToSql, hop, hv]
        decide
      | cons x t =>
        cases t with
        | nil =>
          simp [condToSql, hop, hv]
          decide
        | cons y t2 =>
          cases t2 with
          | nil => exact absurd rfl h2
          | cons z t3 =>
            simp [condToSql, hop, hv]
            decide

theorem where_builder_edge_cases_witness :
    condToSql sqliteAdapter ⟨"status", some "in", PyVal.list []⟩ "a" []
      = .ok ("1=0", []) :=
  where_builder_edge_cases.1 sqliteAdapter ⟨"status", some "in", PyVal.list []⟩
    "a" [] (by decide) rfl

end GenroProxy
